import Mathlib

/-!
Verification of the drumtrack playback, mixing and export engine.

The definitions below are a shallow embedding of the TypeScript sources:
`lib/daw-engine.ts`, `lib/midi-playback.ts`, `lib/audio-export.ts`
(the `exportMix`/`encodeWav` module), `lib/midi-export.ts`,
`components/midi-player.tsx` and `components/daw/daw-channel-strip.tsx`.
Times, gains and sample values are modelled as rationals; machine floats
are treated as exact arithmetic, and JavaScript `Map`/`Record` values as
association lists or functions.
-/

namespace Drumtrack

/-- A drum event produced by the upstream pipeline (`types/index.ts`). -/
structure DrumEvent where
  time : ℚ
  quantized_time : ℚ
  drum_type : String
  midi_note : Nat
  velocity : Nat
  confidence : ℚ
  cluster_id : Int
deriving Repr, DecidableEq

/-- Stem names, from `lib/channel-colors.ts` (`STEM_NAMES`). -/
def STEM_NAMES : List String := ["kick", "snare", "toms", "hh", "cymbals"]

/-- Stem → MIDI notes, from `lib/channel-colors.ts` (`STEM_MIDI_NOTES`). -/
def STEM_MIDI_NOTES : String → List Nat
  | "kick" => [36]
  | "snare" => [38]
  | "toms" => [45, 47, 50]
  | "hh" => [42, 46]
  | "cymbals" => [49, 51]
  | _ => []

/-- Channel kind, from the `type` field of `DawChannel` in `lib/daw-engine.ts`. -/
inductive ChannelType where
  | drumStem
  | backing
deriving Repr, DecidableEq

/-- A mixer channel of the DAW engine (`DawChannel` in `lib/daw-engine.ts`).
`nodeMuted` and `nodeVolume` model the `volumeNode.mute` / `volumeNode.volume.value`
of the underlying `Tone.Volume` node. -/
structure DawChannel where
  id : String
  type : ChannelType
  midiNotes : List Nat
  volume : ℚ
  muted : Bool
  solo : Bool
  nodeMuted : Bool
  nodeVolume : ℚ
deriving Repr, DecidableEq

/-- `DawMixerEngine.recalcMuteStates` (`lib/daw-engine.ts` lines 259-268):
if any channel is soloed, a channel's volume node is muted unless it is
soloed and not muted; otherwise node mute mirrors the channel's own flag. -/
def recalcMuteStates (chs : List DawChannel) : List DawChannel :=
  let anySolo := chs.any (fun c => c.solo)
  chs.map (fun c =>
    { c with nodeMuted := if anySolo then (!c.solo || c.muted) else c.muted })

/-- `DawMixerEngine.toggleMute` (`lib/daw-engine.ts` lines 245-250): flip the
channel's `muted` flag (no-op when the id is unknown), then recalculate. -/
def toggleMute (chs : List DawChannel) (id : String) : List DawChannel :=
  if chs.any (fun c => c.id == id) then
    recalcMuteStates (chs.map fun c => if c.id == id then { c with muted := !c.muted } else c)
  else chs

/-- `DawMixerEngine.toggleSolo` (`lib/daw-engine.ts` lines 252-257). -/
def toggleSolo (chs : List DawChannel) (id : String) : List DawChannel :=
  if chs.any (fun c => c.id == id) then
    recalcMuteStates (chs.map fun c => if c.id == id then { c with solo := !c.solo } else c)
  else chs

/-- A channel is audible when its volume node is not muted. -/
def audible (c : DawChannel) : Bool := !c.nodeMuted

lemma recalcMuteStates_any_solo (xs : List DawChannel) :
    (recalcMuteStates xs).any (fun c => c.solo) = xs.any (fun c => c.solo) := by
  unfold recalcMuteStates
  rw [List.any_map]
  rfl

lemma recalcMuteStates_audible (xs : List DawChannel) :
    ∀ c ∈ recalcMuteStates xs,
      audible c =
        ((!((recalcMuteStates xs).any fun d => d.solo) && !c.muted) || (c.solo && !c.muted)) := by
  intro c hc
  rw [recalcMuteStates_any_solo]
  simp only [recalcMuteStates, List.mem_map] at hc
  obtain ⟨a, _, rfl⟩ := hc
  cases h : xs.any (fun c => c.solo) <;>
    cases a.solo <;> cases a.muted <;> simp_all [audible]

/-- C1: after any `toggleMute` or `toggleSolo` call on an existing channel id,
a channel is audible (its volume node not muted) iff
(no channel has solo AND it is not muted) OR (it has solo AND it is not muted). -/
theorem c1_mixer_audibility (chs : List DawChannel) (id : String)
    (hid : (chs.any fun c => c.id == id) = true) :
    (∀ c ∈ toggleMute chs id,
        audible c =
          ((!((toggleMute chs id).any fun d => d.solo) && !c.muted) || (c.solo && !c.muted)))
    ∧ (∀ c ∈ toggleSolo chs id,
        audible c =
          ((!((toggleSolo chs id).any fun d => d.solo) && !c.muted) || (c.solo && !c.muted))) := by
  constructor
  · intro c hc
    rw [toggleMute, if_pos hid] at hc ⊢
    exact recalcMuteStates_audible _ c hc
  · intro c hc
    rw [toggleSolo, if_pos hid] at hc ⊢
    exact recalcMuteStates_audible _ c hc

/-- Example channel used by witnesses. -/
def sampleChannel (id : String) (m s : Bool) : DawChannel :=
  { id := id, type := ChannelType.drumStem, midiNotes := [36], volume := 0,
    muted := m, solo := s, nodeMuted := false, nodeVolume := 0 }

/-- Witness for C1 on a concrete three-channel mixer. -/
theorem c1_mixer_audibility_witness :
    (∀ c ∈ toggleMute [sampleChannel "kick" false false, sampleChannel "snare" true false,
        sampleChannel "toms" false true] "kick",
        audible c =
          ((!((toggleMute [sampleChannel "kick" false false, sampleChannel "snare" true false,
              sampleChannel "toms" false true] "kick").any fun d => d.solo) && !c.muted)
            || (c.solo && !c.muted)))
    ∧ (∀ c ∈ toggleSolo [sampleChannel "kick" false false, sampleChannel "snare" true false,
        sampleChannel "toms" false true] "kick",
        audible c =
          ((!((toggleSolo [sampleChannel "kick" false false, sampleChannel "snare" true false,
              sampleChannel "toms" false true] "kick").any fun d => d.solo) && !c.muted)
            || (c.solo && !c.muted))) :=
  c1_mixer_audibility _ "kick" (by decide)

/-! ## Playback engine triggers (`lib/midi-playback.ts`) -/

/-- Outcome of one `MidiPlaybackEngine.triggerSample` call: `selected` is the
`url` chosen by round robin (when the note has loaded variants), `started`
records the `player.start(time)` call with the linear velocity gain set on
the player (when a player exists for the chosen url). -/
structure TriggerResult where
  selected : Option String
  started : Option (String × ℚ × ℚ)
deriving Repr, DecidableEq

/-- The trigger-relevant state of `MidiPlaybackEngine`: the note → sample-url
map, which urls have a loaded `Tone.Player`, and the per-note round-robin
counters (`Record<number, number>` with a `?? 0` default). -/
structure PlayState where
  noteUrls : Nat → List String
  players : String → Bool
  roundRobinIndex : Nat → Nat

/-- `MidiPlaybackEngine.triggerSample` (`lib/midi-playback.ts` lines 341-356):
no loaded variants → silent no-op; otherwise pick `urls[idx % urls.length]`,
advance the counter, and start the player when it exists. -/
def triggerSample (st : PlayState) (midiNote : Nat) (time velocity : ℚ) :
    TriggerResult × PlayState :=
  let urls := st.noteUrls midiNote
  if urls.isEmpty then (⟨none, none⟩, st)
  else
    let idx := st.roundRobinIndex midiNote
    let url := urls.getD (idx % urls.length) ""
    let st' := { st with roundRobinIndex := Function.update st.roundRobinIndex midiNote (idx + 1) }
    (⟨some url, if st.players url then some (url, velocity, time) else none⟩, st')

/-- The round-robin selections, restricted to calls for note `n`, produced by a
session of successive `triggerSample` calls `(note, time, velocity)`. -/
def noteSelections (n : Nat) : PlayState → List (Nat × ℚ × ℚ) → List (Option String)
  | _, [] => []
  | st, c :: rest =>
    let p := triggerSample st c.1 c.2.1 c.2.2
    if c.1 = n then p.1.selected :: noteSelections n p.2 rest
    else noteSelections n p.2 rest

/-- The common round-robin recurrence shared by `triggerSample`, the DAW
schedule callback and `exportMix`: selections for note `n` over a list of
triggered notes, threading the counter map. -/
def rrNoteSelections (u : Nat → List String) (n : Nat) :
    (Nat → Nat) → List Nat → List (Option String)
  | _, [] => []
  | rr, m :: rest =>
    let urls := u m
    if urls.isEmpty then
      if m = n then none :: rrNoteSelections u n rr rest else rrNoteSelections u n rr rest
    else
      let sel := some (urls.getD (rr m % urls.length) "")
      let rr' := Function.update rr m (rr m + 1)
      if m = n then sel :: rrNoteSelections u n rr' rest else rrNoteSelections u n rr' rest

lemma rrNoteSelections_formula (u : Nat → List String) (n : Nat) (hN : u n ≠ [])
    (notes : List Nat) : ∀ rr : Nat → Nat,
    rrNoteSelections u n rr notes =
      (List.range (notes.count n)).map
        (fun k => some ((u n).getD ((rr n + k) % (u n).length) "")) := by
  induction notes with
  | nil => intro rr; simp [rrNoteSelections]
  | cons m rest ih =>
    intro rr
    by_cases hm : m = n
    · subst hm
      have hne : (u m).isEmpty = false := by
        simp [List.isEmpty_iff]; exact hN
      rw [rrNoteSelections]
      simp only [hne, Bool.false_eq_true, if_false, eq_self_iff_true, if_true]
      rw [ih (Function.update rr m (rr m + 1))]
      rw [List.count_cons_self, List.range_succ_eq_map, List.map_cons, List.map_map]
      congr 1
      apply List.map_congr_left
      intro k _
      simp only [Function.comp_apply, Function.update_same, Nat.succ_eq_add_one]
      have h1 : rr m + 1 + k = rr m + (k + 1) := by omega
      rw [h1]
    · rw [rrNoteSelections]
      by_cases he : (u m).isEmpty
      · simp only [he, if_true, if_neg hm]
        rw [ih rr, List.count_cons_of_ne (fun h => hm h.symm)]
      · simp only [he, Bool.false_eq_true, if_false, if_neg hm]
        rw [ih (Function.update rr m (rr m + 1)),
          List.count_cons_of_ne (fun h => hm h.symm)]
        congr 1
        funext k
        rw [Function.update_noteq (fun h => hm h.symm)]

lemma noteSelections_eq_rr (n : Nat) (calls : List (Nat × ℚ × ℚ)) : ∀ st : PlayState,
    noteSelections n st calls =
      rrNoteSelections st.noteUrls n st.roundRobinIndex (calls.map Prod.fst) := by
  induction calls with
  | nil => intro st; simp [noteSelections, rrNoteSelections]
  | cons c rest ih =>
    intro st
    rw [List.map_cons, noteSelections, rrNoteSelections]
    by_cases he : (st.noteUrls c.1).isEmpty
    · simp only [triggerSample, he, if_true]
      rw [ih]
    · simp only [triggerSample, he, Bool.false_eq_true, if_false]
      rw [ih]

/-- C2, part for the integrated engine, in closed form: for a note with a
nonempty variant list and a zeroed counter, the k-th selection is variant
`k mod N`. -/
lemma noteSelections_mod (st : PlayState) (n : Nat) (hN : st.noteUrls n ≠ [])
    (h0 : st.roundRobinIndex n = 0) (calls : List (Nat × ℚ × ℚ)) :
    noteSelections n st calls =
      (List.range ((calls.map Prod.fst).count n)).map
        (fun k => some ((st.noteUrls n).getD (k % (st.noteUrls n).length) "")) := by
  rw [noteSelections_eq_rr, rrNoteSelections_formula _ _ hN]
  simp [h0]

/-! ## Offline renderer (`lib/audio-export.ts`, `exportMix`) -/

/-- A one-shot source placement in the offline render graph: the decoded
buffer's url, the gain-node value, and the `source.start` time. -/
structure MixPlacement where
  url : String
  gain : ℚ
  startTime : ℚ
deriving Repr, DecidableEq

/-- The drum-event placements built by `exportMix` (`lib/audio-export.ts`
lines 274-294): per-note round robin over `noteUrls`, skipping events with no
urls (counter untouched) and events whose selected url has no decoded buffer
(counter already advanced); each placed source gets gain
`(velocity/127) * midiGain` and starts at `quantized_time`. -/
def exportMixDrumPlacements (noteUrls : Nat → List String)
    (sampleBuffers : String → Bool) (midiGain : ℚ) :
    (Nat → Nat) → List DrumEvent → List MixPlacement
  | _, [] => []
  | rr, e :: rest =>
    let urls := noteUrls e.midi_note
    if urls.isEmpty then exportMixDrumPlacements noteUrls sampleBuffers midiGain rr rest
    else
      let idx := rr e.midi_note
      let url := urls.getD (idx % urls.length) ""
      let rr' := Function.update rr e.midi_note (idx + 1)
      if sampleBuffers url then
        ⟨url, (e.velocity : ℚ) / 127 * midiGain, e.quantized_time⟩ ::
          exportMixDrumPlacements noteUrls sampleBuffers midiGain rr' rest
      else exportMixDrumPlacements noteUrls sampleBuffers midiGain rr' rest

/-- The round-robin url selections of the `exportMix` drum loop, restricted to
events for note `n` (the `url` local of the loop body). -/
def exportMixSelections (u : Nat → List String) (n : Nat) :
    (Nat → Nat) → List DrumEvent → List (Option String)
  | _, [] => []
  | rr, e :: rest =>
    let urls := u e.midi_note
    if urls.isEmpty then exportMixSelections u n rr rest
    else
      let url := urls.getD (rr e.midi_note % urls.length) ""
      let rr' := Function.update rr e.midi_note (rr e.midi_note + 1)
      if e.midi_note = n then some url :: exportMixSelections u n rr' rest
      else exportMixSelections u n rr' rest

lemma exportMixSelections_eq_rr (u : Nat → List String) (n : Nat) (hN : u n ≠ [])
    (events : List DrumEvent) : ∀ rr : Nat → Nat,
    exportMixSelections u n rr events = rrNoteSelections u n rr (events.map (·.midi_note)) := by
  induction events with
  | nil => intro rr; simp [exportMixSelections, rrNoteSelections]
  | cons e rest ih =>
    intro rr
    rw [List.map_cons, exportMixSelections, rrNoteSelections]
    by_cases he : (u e.midi_note).isEmpty
    · have hm : e.midi_note ≠ n := by
        intro h; rw [h] at he; exact hN (List.isEmpty_iff.mp he)
      simp only [he, if_true, if_neg hm]
      exact ih rr
    · simp only [he, Bool.false_eq_true, if_false]
      rw [ih]

/-- Backing-track decode result relevant to the offline render: its native
sample rate and duration in seconds. -/
structure BackingBuffer where
  sampleRate : ℚ
  duration : ℚ
deriving Repr, DecidableEq

/-- Static description of the render graph `exportMix` constructs
(`lib/audio-export.ts` lines 260-299): a 2-channel `OfflineAudioContext` of
`ceil(sampleRate * duration)` frames at the backing track's rate, the backing
source through a gain node started at 0, and the drum placements; the offline
context renders synchronously to completion and is encoded to WAV. -/
structure MixRender where
  numChannels : Nat
  lengthFrames : Int
  sampleRate : ℚ
  backingGain : ℚ
  backingStart : ℚ
  drums : List MixPlacement
deriving Repr, DecidableEq

/-- The pure core of `exportMix`: the render graph it constructs from the
decoded backing buffer, the kit's note → url map, the set of decoded sample
buffers, the event list and the two master gains. -/
def exportMix (backing : BackingBuffer) (noteUrls : Nat → List String)
    (sampleBuffers : String → Bool) (events : List DrumEvent)
    (midiGain backingGain : ℚ) : MixRender :=
  { numChannels := 2
    lengthFrames := ⌈backing.sampleRate * backing.duration⌉
    sampleRate := backing.sampleRate
    backingGain := backingGain
    backingStart := 0
    drums := exportMixDrumPlacements noteUrls sampleBuffers midiGain (fun _ => 0) events }

/-! ## DAW engine trigger callback (`lib/daw-engine.ts`, `scheduleDawEvents`) -/

/-- MIDI note → stem id, as built in `scheduleDawEvents` (lines 156-162) from
`STEM_MIDI_NOTES`; the stems' note sets are disjoint, so first match equals
the record the source builds. -/
def noteToStem (note : Nat) : Option String :=
  STEM_NAMES.find? (fun stem => (STEM_MIDI_NOTES stem).contains note)

/-- State read by a DAW scheduled trigger callback: the base engine's note →
url map (looked up at trigger time), the per-stem dedicated players, and the
closed-over round-robin counters of one `scheduleDawEvents` installation. -/
structure DawTriggerState where
  noteUrls : Nat → List String
  stemPlayers : String → String → Bool
  roundRobinIndex : Nat → Nat

/-- Body of the callback `scheduleDawEvents` registers per event
(`lib/daw-engine.ts` lines 165-184): resolve the stem, look up urls (no-op
when absent or empty), round robin, and start the stem's dedicated player
with linear gain `velocity/127` when it exists. -/
def dawTriggerCallback (st : DawTriggerState) (e : DrumEvent) (time : ℚ) :
    Option (String × String × ℚ × ℚ) × DawTriggerState :=
  match noteToStem e.midi_note with
  | none => (none, st)
  | some stemId =>
    let urls := st.noteUrls e.midi_note
    if urls.isEmpty then (none, st)
    else
      let idx := st.roundRobinIndex e.midi_note
      let url := urls.getD (idx % urls.length) ""
      let st' := { st with
        roundRobinIndex := Function.update st.roundRobinIndex e.midi_note (idx + 1) }
      (if st.stemPlayers stemId url then some (stemId, url, (e.velocity : ℚ) / 127, time)
       else none, st')

/-- C2: for an instrument with a nonempty variant list and zeroed counter, the
k-th trigger of that note (0-indexed across the session) selects variant
`k mod N` independently of other notes' activity; the counter advances on
every trigger of that note regardless of the outcome; and the offline
renderer's round robin follows the same rule over the event list. -/
theorem c2_round_robin (st : PlayState) (n : Nat) (hN : st.noteUrls n ≠ [])
    (h0 : st.roundRobinIndex n = 0) (calls : List (Nat × ℚ × ℚ))
    (events : List DrumEvent) :
    noteSelections n st calls
        = (List.range ((calls.map Prod.fst).count n)).map
            (fun k => some ((st.noteUrls n).getD (k % (st.noteUrls n).length) ""))
      ∧ (∀ t v : ℚ, (triggerSample st n t v).2.roundRobinIndex n = st.roundRobinIndex n + 1)
      ∧ exportMixSelections st.noteUrls n (fun _ => 0) events
        = (List.range ((events.map (·.midi_note)).count n)).map
            (fun k => some ((st.noteUrls n).getD (k % (st.noteUrls n).length) "")) := by
  have hne : (st.noteUrls n).isEmpty = false := by
    simp [List.isEmpty_iff]; exact hN
  refine ⟨?_, ?_, ?_⟩
  · rw [noteSelections_eq_rr, rrNoteSelections_formula _ _ hN]
    simp [h0]
  · intro t v
    simp [triggerSample, hne, Function.update_same]
  · rw [exportMixSelections_eq_rr _ _ hN, rrNoteSelections_formula _ _ hN]
    simp

/-- Concrete play state for the C2 witness: note 36 has two variants. -/
def c2State : PlayState :=
  { noteUrls := fun n => if n = 36 then ["kick-a.wav", "kick-b.wav"] else []
    players := fun _ => true
    roundRobinIndex := fun _ => 0 }

/-- Concrete event used by witnesses. -/
def mkEvent (note : Nat) (t : ℚ) (vel : Nat) : DrumEvent :=
  { time := t, quantized_time := t, drum_type := "kick", midi_note := note,
    velocity := vel, confidence := 1, cluster_id := 0 }

/-- Witness for C2 at a concrete session: four triggers of note 36 (with a
note-38 trigger interleaved) select variants `[0,1,0,1]`. -/
theorem c2_round_robin_witness :
    noteSelections 36 c2State [(36, 0, 1), (38, (1:ℚ)/2, 1), (36, 1, 1), (36, (3:ℚ)/2, 1)]
        = (List.range (((([(36, 0, 1), (38, (1:ℚ)/2, 1), (36, 1, 1),
            (36, (3:ℚ)/2, 1)] : List (Nat × ℚ × ℚ)).map Prod.fst)).count 36)).map
            (fun k => some ((c2State.noteUrls 36).getD (k % (c2State.noteUrls 36).length) ""))
      ∧ (∀ t v : ℚ, (triggerSample c2State 36 t v).2.roundRobinIndex 36
          = c2State.roundRobinIndex 36 + 1)
      ∧ exportMixSelections c2State.noteUrls 36 (fun _ => 0)
            [mkEvent 36 0 100, mkEvent 36 (1/2) 64, mkEvent 36 1 32, mkEvent 36 (3/2) 16]
        = (List.range ((([mkEvent 36 0 100, mkEvent 36 (1/2) 64, mkEvent 36 1 32,
            mkEvent 36 (3/2) 16].map (·.midi_note))).count 36)).map
            (fun k => some ((c2State.noteUrls 36).getD (k % (c2State.noteUrls 36).length) "")) :=
  c2_round_robin c2State 36 (by simp [c2State]) (by rfl) _ _

/-- C9: a trigger for an instrument with no loaded sample variants is a silent
no-op in both engines: the call returns normally, starts no playback, and
leaves the state unchanged. -/
theorem c9_no_variant_noop :
    (∀ (st : PlayState) (n : Nat) (t v : ℚ), st.noteUrls n = [] →
        triggerSample st n t v = (⟨none, none⟩, st))
    ∧ (∀ (st : DawTriggerState) (e : DrumEvent) (t : ℚ), st.noteUrls e.midi_note = [] →
        dawTriggerCallback st e t = (none, st)) := by
  constructor
  · intro st n t v h
    simp [triggerSample, h]
  · intro st e t h
    cases hstem : noteToStem e.midi_note <;> simp [dawTriggerCallback, hstem, h]

/-- Concrete DAW trigger state with no urls anywhere, for the C9 witness. -/
def c9DawState : DawTriggerState :=
  { noteUrls := fun _ => [], stemPlayers := fun _ _ => true, roundRobinIndex := fun _ => 0 }

/-- Concrete play state with no urls anywhere, for the C9 witness. -/
def c9PlayState : PlayState :=
  { noteUrls := fun _ => [], players := fun _ => true, roundRobinIndex := fun _ => 0 }

/-- Witness for C9 at a note with no loaded variants. -/
theorem c9_no_variant_noop_witness :
    triggerSample c9PlayState 36 0 1 = (⟨none, none⟩, c9PlayState)
    ∧ dawTriggerCallback c9DawState (mkEvent 36 0 100) 0 = (none, c9DawState) :=
  ⟨c9_no_variant_noop.1 c9PlayState 36 0 1 rfl,
   c9_no_variant_noop.2 c9DawState (mkEvent 36 0 100) 0 rfl⟩

/-! ## Transport scheduling (`Tone.getTransport().schedule` / `.clear`) -/

/-- The Tone.js transport as used by both engines: a fresh numeric handle per
`schedule` call and a list of outstanding (handle, at_seconds) entries. -/
structure Transport where
  nextId : Nat
  entries : List (Nat × ℚ)
  bpm : ℚ
deriving Repr, DecidableEq

/-- `Tone.getTransport().schedule(cb, at)`: returns a fresh handle and records
the entry. -/
def Transport.schedule (t : Transport) (at_ : ℚ) : Nat × Transport :=
  (t.nextId, { t with nextId := t.nextId + 1, entries := t.entries ++ [(t.nextId, at_)] })

/-- `Tone.getTransport().clear(id)`: removes the entry with that handle. -/
def Transport.clear (t : Transport) (id : Nat) : Transport :=
  { t with entries := t.entries.filter (fun p => p.1 != id) }

/-- The schedule-owning part of an engine: its transport view and its
`scheduledEvents` handle list. -/
structure SchedulerState where
  transport : Transport
  scheduledEvents : List Nat
deriving Repr, DecidableEq

/-- `clearScheduled` (`lib/midi-playback.ts` lines 412-417) and the identical
loop opening `scheduleDawEvents` (`lib/daw-engine.ts` lines 149-152): clear
every outstanding handle, then empty the handle list. -/
def clearScheduled (s : SchedulerState) : SchedulerState :=
  { transport := s.scheduledEvents.foldl Transport.clear s.transport, scheduledEvents := [] }

/-- One iteration of the scheduling loop: register a callback at the event's
`quantized_time` and push the returned handle. -/
def scheduleStep (acc : SchedulerState) (e : DrumEvent) : SchedulerState :=
  let r := acc.transport.schedule e.quantized_time
  { transport := r.2, scheduledEvents := acc.scheduledEvents ++ [r.1] }

/-- `MidiPlaybackEngine.scheduleEvents` (`lib/midi-playback.ts` lines 358-368):
clear all previous handles, set the tempo, then schedule one callback per
event. -/
def scheduleEvents (s : SchedulerState) (events : List DrumEvent) (bpm : ℚ) : SchedulerState :=
  let s0 := clearScheduled s
  events.foldl scheduleStep
    ⟨{ s0.transport with bpm := bpm }, s0.scheduledEvents⟩

/-- `DawMixerEngine.scheduleDawEvents` (`lib/daw-engine.ts` lines 148-187),
schedule-handle view: clear all previous handles, then schedule one callback
per event (tempo untouched). -/
def scheduleDawEvents (s : SchedulerState) (events : List DrumEvent) : SchedulerState :=
  events.foldl scheduleStep (clearScheduled s)

/-- Ownership invariant: every outstanding transport entry installed by the
engine is retained in its `scheduledEvents` list. -/
def ownsEntries (s : SchedulerState) : Prop :=
  ∀ p ∈ s.transport.entries, p.1 ∈ s.scheduledEvents

lemma foldl_clear_spec (ids : List Nat) : ∀ t : Transport,
    ids.foldl Transport.clear t =
      { t with entries := t.entries.filter (fun p => !ids.contains p.1) } := by
  induction ids with
  | nil => intro t; simp
  | cons i rest ih =>
    intro t
    rw [List.foldl_cons, ih]
    simp only [Transport.clear, List.filter_filter]
    congr 1
    apply List.filter_congr
    intro p _
    by_cases h2 : p.1 ∈ rest <;> by_cases h3 : p.1 = i <;>
      simp [List.contains_cons, h2, h3, bne]

lemma clearScheduled_entries (s : SchedulerState) (hown : ownsEntries s) :
    (clearScheduled s).transport.entries = [] := by
  rw [clearScheduled, foldl_clear_spec]
  apply List.filter_eq_nil_iff.mpr
  intro p hp
  have := hown p hp
  simp [List.elem_eq_mem]
  exact this

lemma clearScheduled_nextId (s : SchedulerState) :
    (clearScheduled s).transport.nextId = s.transport.nextId := by
  rw [clearScheduled, foldl_clear_spec]

lemma clearScheduled_bpm (s : SchedulerState) :
    (clearScheduled s).transport.bpm = s.transport.bpm := by
  rw [clearScheduled, foldl_clear_spec]

/-- Full characterisation of the scheduling loop: it appends fresh entries,
one per event at its `quantized_time`, retains exactly their handles, and all
new handles are at least the starting `nextId`. -/
lemma scheduleLoop_decomp (events : List DrumEvent) : ∀ (t : Transport) (sch : List Nat),
    ∃ newE : List (Nat × ℚ),
      (events.foldl scheduleStep ⟨t, sch⟩).transport.entries = t.entries ++ newE
      ∧ (events.foldl scheduleStep ⟨t, sch⟩).scheduledEvents = sch ++ newE.map Prod.fst
      ∧ newE.map Prod.snd = events.map (·.quantized_time)
      ∧ (∀ p ∈ newE, t.nextId ≤ p.1)
      ∧ (events.foldl scheduleStep ⟨t, sch⟩).transport.nextId = t.nextId + events.length
      ∧ (events.foldl scheduleStep ⟨t, sch⟩).transport.bpm = t.bpm := by
  induction events with
  | nil => intro t sch; exact ⟨[], by simp⟩
  | cons e rest ih =>
    intro t sch
    rw [List.foldl_cons]
    obtain ⟨newE, h1, h2, h3, h4, h5, h6⟩ :=
      ih { t with nextId := t.nextId + 1, entries := t.entries ++ [(t.nextId, e.quantized_time)] }
        (sch ++ [t.nextId])
    refine ⟨(t.nextId, e.quantized_time) :: newE, ?_, ?_, ?_, ?_, ?_, ?_⟩
    · have h1' : (rest.foldl scheduleStep (scheduleStep ⟨t, sch⟩ e)).transport.entries
          = (t.entries ++ [(t.nextId, e.quantized_time)]) ++ newE := h1
      rw [h1']
      simp
    · have h2' : (rest.foldl scheduleStep (scheduleStep ⟨t, sch⟩ e)).scheduledEvents
          = (sch ++ [t.nextId]) ++ newE.map Prod.fst := h2
      rw [h2']
      simp
    · simp only [List.map_cons, h3]
    · intro p hp
      rcases List.mem_cons.mp hp with h | h
      · subst h; exact le_refl _
      · exact le_trans (Nat.le_succ _) (h4 p h)
    · have h5' : (rest.foldl scheduleStep (scheduleStep ⟨t, sch⟩ e)).transport.nextId
          = (t.nextId + 1) + rest.length := h5
      rw [h5']
      simp only [List.length_cons]
      omega
    · exact h6

lemma scheduleEvents_entries (s : SchedulerState) (hown : ownsEntries s)
    (events : List DrumEvent) (bpm : ℚ) :
    (scheduleEvents s events bpm).transport.entries.map Prod.snd
        = events.map (·.quantized_time)
    ∧ ownsEntries (scheduleEvents s events bpm) := by
  obtain ⟨newE, h1, h2, h3, _, _, _⟩ :=
    scheduleLoop_decomp events { (clearScheduled s).transport with bpm := bpm }
      (clearScheduled s).scheduledEvents
  rw [scheduleEvents]
  constructor
  · rw [h1]
    simp [clearScheduled_entries s hown, h3]
  · intro p hp
    rw [h1] at hp
    rw [h2]
    simp only [clearScheduled_entries s hown, List.nil_append] at hp
    have : p.1 ∈ newE.map Prod.fst := List.mem_map_of_mem _ hp
    exact List.mem_append_right _ this

lemma scheduleDawEvents_entries (s : SchedulerState) (hown : ownsEntries s)
    (events : List DrumEvent) :
    (scheduleDawEvents s events).transport.entries.map Prod.snd
        = events.map (·.quantized_time)
    ∧ ownsEntries (scheduleDawEvents s events) := by
  obtain ⟨newE, h1, h2, h3, _, _, _⟩ :=
    scheduleLoop_decomp events (clearScheduled s).transport (clearScheduled s).scheduledEvents
  rw [scheduleDawEvents]
  constructor
  · rw [h1]
    simp [clearScheduled_entries s hown, h3]
  · intro p hp
    rw [h1] at hp
    rw [h2]
    simp only [clearScheduled_entries s hown, List.nil_append] at hp
    have : p.1 ∈ newE.map Prod.fst := List.mem_map_of_mem _ hp
    exact List.mem_append_right _ this

lemma installAll_last (installs : List (List DrumEvent × ℚ)) (hne : installs ≠ []) :
    ∀ s : SchedulerState, ownsEntries s →
      (installs.foldl (fun acc ins => scheduleEvents acc ins.1 ins.2) s).transport.entries.map
          Prod.snd
        = (installs.getLast hne).1.map (·.quantized_time) := by
  induction installs with
  | nil => exact absurd rfl hne
  | cons i rest ih =>
    intro s hown
    cases rest with
    | nil =>
      simpa using (scheduleEvents_entries s hown i.1 i.2).1
    | cons j rest' =>
      rw [List.foldl_cons, List.getLast_cons (List.cons_ne_nil _ _)]
      exact ih (List.cons_ne_nil _ _) _ (scheduleEvents_entries s hown i.1 i.2).2

/-- C4: every schedule installation cancels all previously outstanding handles
before registering the new set: a single installation leaves exactly the new
event list scheduled (one transport entry per event at its quantized time) and
re-establishes handle ownership, for both `scheduleEvents` and
`scheduleDawEvents`; hence after any nonempty sequence of installations
exactly the most recent event list is scheduled. -/
theorem c4_reschedule_integrity (s : SchedulerState) (hown : ownsEntries s)
    (events : List DrumEvent) (bpm : ℚ) :
    (scheduleEvents s events bpm).transport.entries.map Prod.snd
        = events.map (·.quantized_time)
    ∧ ownsEntries (scheduleEvents s events bpm)
    ∧ (scheduleDawEvents s events).transport.entries.map Prod.snd
        = events.map (·.quantized_time)
    ∧ ownsEntries (scheduleDawEvents s events)
    ∧ (∀ (installs : List (List DrumEvent × ℚ)) (hne : installs ≠ []),
        (installs.foldl (fun acc ins => scheduleEvents acc ins.1 ins.2) s).transport.entries.map
            Prod.snd
          = (installs.getLast hne).1.map (·.quantized_time)) :=
  ⟨(scheduleEvents_entries s hown events bpm).1,
   (scheduleEvents_entries s hown events bpm).2,
   (scheduleDawEvents_entries s hown events).1,
   (scheduleDawEvents_entries s hown events).2,
   fun installs hne => installAll_last installs hne s hown⟩

/-- Concrete scheduler state with one stale handle, for the C4 witness. -/
def c4State : SchedulerState :=
  { transport := { nextId := 1, entries := [(0, 7)], bpm := 120 }, scheduledEvents := [0] }

/-- Witness for C4: installing two successive event lists on a state with one
outstanding handle leaves exactly the second list scheduled. -/
theorem c4_reschedule_integrity_witness :
    (scheduleEvents c4State [mkEvent 36 0 100] 120).transport.entries.map Prod.snd
        = [mkEvent 36 0 100].map (·.quantized_time)
    ∧ ownsEntries (scheduleEvents c4State [mkEvent 36 0 100] 120)
    ∧ (scheduleDawEvents c4State [mkEvent 36 0 100]).transport.entries.map Prod.snd
        = [mkEvent 36 0 100].map (·.quantized_time)
    ∧ ownsEntries (scheduleDawEvents c4State [mkEvent 36 0 100])
    ∧ (∀ (installs : List (List DrumEvent × ℚ)) (hne : installs ≠ []),
        ((installs.foldl (fun acc ins => scheduleEvents acc ins.1 ins.2)
            c4State).transport.entries).map Prod.snd
          = (installs.getLast hne).1.map (·.quantized_time)) :=
  c4_reschedule_integrity c4State (by intro p hp; simp [c4State] at hp; simp [c4State, hp])
    [mkEvent 36 0 100] 120

lemma getD_mem_of_lt {l : List String} (k : Nat) (hk : k < l.length) (d : String) :
    l.getD k d ∈ l := by
  rw [List.getD_eq_getElem l d hk]
  exact List.getElem_mem hk

/-- The gain/start-time projection of the drum placements: when every variant
url of every event's note has a decoded buffer, exactly the events whose note
has a nonempty url list are placed, in order, with gain
`(velocity/127) * midiGain` at `quantized_time`. -/
lemma exportMixDrumPlacements_proj (u : Nat → List String) (sb : String → Bool)
    (g : ℚ) (events : List DrumEvent)
    (hdec : ∀ e ∈ events, ∀ url ∈ u e.midi_note, sb url = true) : ∀ rr : Nat → Nat,
    (exportMixDrumPlacements u sb g rr events).map (fun p => (p.gain, p.startTime))
      = (events.filter (fun e => !(u e.midi_note).isEmpty)).map
          (fun e => ((e.velocity : ℚ) / 127 * g, e.quantized_time)) := by
  induction events with
  | nil => intro rr; simp [exportMixDrumPlacements]
  | cons e rest ih =>
    intro rr
    have hdec' : ∀ x ∈ rest, ∀ url ∈ u x.midi_note, sb url = true :=
      fun x hx => hdec x (List.mem_cons_of_mem _ hx)
    rw [exportMixDrumPlacements, List.filter_cons]
    by_cases he : (u e.midi_note).isEmpty
    · simp only [he, if_true, Bool.not_true, Bool.false_eq_true, ite_false]
      exact ih hdec' rr
    · have hlen : 0 < (u e.midi_note).length := by
        cases h : u e.midi_note with
        | nil => rw [h] at he; simp at he
        | cons a l => simp [h]
      have hurl : (u e.midi_note).getD (rr e.midi_note % (u e.midi_note).length) "" ∈
          u e.midi_note := getD_mem_of_lt _ (Nat.mod_lt _ hlen) _
      have hsb := hdec e (List.mem_cons_self _ _) _ hurl
      simp only [he, Bool.false_eq_true, if_false, hsb, if_true, Bool.not_false, ite_true]
      rw [List.map_cons, List.map_cons, ih hdec']

/-- C5: the offline master render builds a 2-channel output sized to the
backing track's duration at its native sample rate, places the backing source
at time 0 with the backing master gain, and (when every referenced variant is
decoded) starts one one-shot per placeable event at exactly its
`quantized_time` with gain `(velocity/127) * midiGain`. -/
theorem c5_export_mix (backing : BackingBuffer) (noteUrls : Nat → List String)
    (sampleBuffers : String → Bool) (events : List DrumEvent) (midiGain backingGain : ℚ)
    (hdec : ∀ e ∈ events, ∀ url ∈ noteUrls e.midi_note, sampleBuffers url = true) :
    (exportMix backing noteUrls sampleBuffers events midiGain backingGain).numChannels = 2
    ∧ (exportMix backing noteUrls sampleBuffers events midiGain backingGain).lengthFrames
        = ⌈backing.sampleRate * backing.duration⌉
    ∧ (exportMix backing noteUrls sampleBuffers events midiGain backingGain).sampleRate
        = backing.sampleRate
    ∧ (exportMix backing noteUrls sampleBuffers events midiGain backingGain).backingStart = 0
    ∧ (exportMix backing noteUrls sampleBuffers events midiGain backingGain).backingGain
        = backingGain
    ∧ ((exportMix backing noteUrls sampleBuffers events midiGain backingGain).drums).map
          (fun p => (p.gain, p.startTime))
        = (events.filter (fun e => !(noteUrls e.midi_note).isEmpty)).map
            (fun e => ((e.velocity : ℚ) / 127 * midiGain, e.quantized_time)) :=
  ⟨rfl, rfl, rfl, rfl, rfl,
   exportMixDrumPlacements_proj noteUrls sampleBuffers midiGain events hdec (fun _ => 0)⟩

/-- Concrete backing buffer for witnesses. -/
def c5Backing : BackingBuffer := { sampleRate := 44100, duration := 2 }

/-- Witness for C5 on a concrete render: two kick events over a 2-second
backing track at 44.1 kHz. -/
theorem c5_export_mix_witness :
    (exportMix c5Backing c2State.noteUrls (fun _ => true)
        [mkEvent 36 0 100, mkEvent 36 1 64] 1 1).numChannels = 2
    ∧ (exportMix c5Backing c2State.noteUrls (fun _ => true)
        [mkEvent 36 0 100, mkEvent 36 1 64] 1 1).lengthFrames
        = ⌈c5Backing.sampleRate * c5Backing.duration⌉
    ∧ (exportMix c5Backing c2State.noteUrls (fun _ => true)
        [mkEvent 36 0 100, mkEvent 36 1 64] 1 1).sampleRate = c5Backing.sampleRate
    ∧ (exportMix c5Backing c2State.noteUrls (fun _ => true)
        [mkEvent 36 0 100, mkEvent 36 1 64] 1 1).backingStart = 0
    ∧ (exportMix c5Backing c2State.noteUrls (fun _ => true)
        [mkEvent 36 0 100, mkEvent 36 1 64] 1 1).backingGain = 1
    ∧ ((exportMix c5Backing c2State.noteUrls (fun _ => true)
          [mkEvent 36 0 100, mkEvent 36 1 64] 1 1).drums).map
          (fun p => (p.gain, p.startTime))
        = ([mkEvent 36 0 100, mkEvent 36 1 64].filter
            (fun e => !(c2State.noteUrls e.midi_note).isEmpty)).map
            (fun e => ((e.velocity : ℚ) / 127 * 1, e.quantized_time)) :=
  c5_export_mix c5Backing c2State.noteUrls (fun _ => true)
    [mkEvent 36 0 100, mkEvent 36 1 64] 1 1 (by intro e he url hu; rfl)

/-! ## DAW engine activation round trip (`lib/daw-engine.ts`) -/

/-- Which bus the backing `Tone.Player` is connected to. -/
inductive BackingBus where
  | baseVolume
  | dawChannel
deriving Repr, DecidableEq

/-- Observable state of a `DawMixerEngine` together with its base engine:
transport entries and the DAW engine's own handles, activation flag, base
engine mute flag, the backing player's destination bus, the per-stem + backing
channels, the dedicated per-stem player clones, and the metronome nodes. -/
structure DawEngineState where
  transport : Transport
  dawScheduled : List Nat
  active : Bool
  baseMuted : Bool
  backingBus : BackingBus
  channels : List DawChannel
  stemPlayerUrls : List (String × String)
  metronomeNodes : Bool
  baseNoteUrls : Nat → List String
  basePlayersLoaded : String → Bool

/-- `buildStemPlayers` (`lib/daw-engine.ts` lines 113-146): for each stem, one
dedicated player clone per distinct loaded url of the stem's notes. -/
def buildStemPlayers (noteUrls : Nat → List String) (loaded : String → Bool) :
    List (String × String) :=
  STEM_NAMES.flatMap (fun stem =>
    ((((STEM_MIDI_NOTES stem).flatMap noteUrls).dedup).filter loaded).map
      (fun url => (stem, url)))

/-- The channels `activate` creates (`lib/daw-engine.ts` lines 57-83): one per
stem plus the backing channel, all at 0 dB, unmuted, unsoloed. -/
def activateChannels : List DawChannel :=
  STEM_NAMES.map (fun stem =>
    { id := stem, type := ChannelType.drumStem, midiNotes := STEM_MIDI_NOTES stem,
      volume := 0, muted := false, solo := false, nodeMuted := false, nodeVolume := 0 })
  ++ [{ id := "backing", type := ChannelType.backing, midiNotes := [], volume := 0,
        muted := false, solo := false, nodeMuted := false, nodeVolume := 0 }]

/-- `DawMixerEngine.activate` (`lib/daw-engine.ts` lines 50-106): no-op when
already active; otherwise mute the base engine, create the per-stem and
backing channels, reconnect the backing player to its DAW channel, build the
dedicated stem players, schedule the events through them, and create the
metronome nodes. -/
def activate (s : DawEngineState) (events : List DrumEvent) : DawEngineState :=
  if s.active then s
  else
    let r := scheduleDawEvents ⟨s.transport, s.dawScheduled⟩ events
    { s with active := true
             baseMuted := true
             channels := activateChannels
             backingBus := BackingBus.dawChannel
             stemPlayerUrls := buildStemPlayers s.baseNoteUrls s.basePlayersLoaded
             transport := r.transport
             dawScheduled := r.scheduledEvents
             metronomeNodes := true }

/-- `DawMixerEngine.deactivate` (`lib/daw-engine.ts` lines 196-236): no-op
when inactive; otherwise clear the DAW handles, dispose the stem player
clones, reconnect the backing player to the base engine's backing volume
node, dispose the channels and metronome nodes, and unmute the base engine. -/
def deactivate (s : DawEngineState) : DawEngineState :=
  if !s.active then s
  else
    { s with active := false
             transport := s.dawScheduled.foldl Transport.clear s.transport
             dawScheduled := []
             stemPlayerUrls := []
             backingBus := BackingBus.baseVolume
             channels := []
             metronomeNodes := false
             baseMuted := false }

/-- C6: activating multi-bus mode then deactivating it restores the original
two-bus routing: the backing player is reconnected to the base engine's
backing volume node, the base engine is unmuted, all per-stem channels and
dedicated voices (and metronome nodes) are disposed, and the transport's
scheduled entries — hence the total trigger count and trigger timing for the
event list — are identical to before the round trip. -/
theorem c6_topology_round_trip (s : DawEngineState) (events : List DrumEvent)
    (hact : s.active = false) (hsch : s.dawScheduled = [])
    (hfresh : ∀ p ∈ s.transport.entries, p.1 < s.transport.nextId) :
    (deactivate (activate s events)).active = false
    ∧ (deactivate (activate s events)).baseMuted = false
    ∧ (deactivate (activate s events)).backingBus = BackingBus.baseVolume
    ∧ (deactivate (activate s events)).channels = []
    ∧ (deactivate (activate s events)).stemPlayerUrls = []
    ∧ (deactivate (activate s events)).metronomeNodes = false
    ∧ (deactivate (activate s events)).transport.entries = s.transport.entries := by
  obtain ⟨newE, h1, h2, h3, h4, _, _⟩ := scheduleLoop_decomp events s.transport []
  have hA : activate s events =
      { s with active := true
               baseMuted := true
               channels := activateChannels
               backingBus := BackingBus.dawChannel
               stemPlayerUrls := buildStemPlayers s.baseNoteUrls s.basePlayersLoaded
               transport := (events.foldl scheduleStep ⟨s.transport, []⟩).transport
               dawScheduled := (events.foldl scheduleStep ⟨s.transport, []⟩).scheduledEvents
               metronomeNodes := true } := by
    rw [activate, if_neg (by simp [hact]), hsch]
    rfl
  have hent : ((events.foldl scheduleStep (⟨s.transport, []⟩ : SchedulerState)).scheduledEvents.foldl
      Transport.clear (events.foldl scheduleStep ⟨s.transport, []⟩).transport).entries
      = s.transport.entries := by
    rw [foldl_clear_spec, h2, h1]
    simp only [List.nil_append]
    rw [List.filter_append]
    have e1 : s.transport.entries.filter (fun p => !(newE.map Prod.fst).contains p.1)
        = s.transport.entries := by
      apply List.filter_eq_self.mpr
      intro p hp
      have hlt := hfresh p hp
      simp only [List.elem_eq_mem, List.mem_map, Bool.not_eq_true', decide_eq_false_iff_not]
      rintro ⟨q, hq, hq1⟩
      have := h4 q hq
      omega
    have e2 : newE.filter (fun p => !(newE.map Prod.fst).contains p.1) = [] := by
      apply List.filter_eq_nil_iff.mpr
      intro p hp
      simp only [List.elem_eq_mem, List.mem_map, Bool.not_eq_true', decide_eq_false_iff_not,
        not_not]
      exact ⟨p, hp, rfl⟩
    rw [e1, e2, List.append_nil]
  rw [hA, deactivate]
  refine ⟨?_, ?_, ?_, ?_, ?_, ?_, ?_⟩ <;>
    simp only [Bool.not_true, Bool.false_eq_true, if_false] <;>
    first
    | rfl
    | exact hent

/-- Concrete inactive engine state with two scheduled base entries, for the
C6 witness. -/
def c6State : DawEngineState :=
  { transport := { nextId := 2, entries := [(0, 0), (1, 1)], bpm := 120 },
    dawScheduled := [], active := false, baseMuted := false,
    backingBus := BackingBus.baseVolume, channels := [], stemPlayerUrls := [],
    metronomeNodes := false, baseNoteUrls := c2State.noteUrls,
    basePlayersLoaded := fun _ => true }

/-- Witness for C6 at a concrete state and event list. -/
theorem c6_topology_round_trip_witness :
    (deactivate (activate c6State [mkEvent 36 0 100, mkEvent 38 1 64])).active = false
    ∧ (deactivate (activate c6State [mkEvent 36 0 100, mkEvent 38 1 64])).baseMuted = false
    ∧ (deactivate (activate c6State [mkEvent 36 0 100, mkEvent 38 1 64])).backingBus
        = BackingBus.baseVolume
    ∧ (deactivate (activate c6State [mkEvent 36 0 100, mkEvent 38 1 64])).channels = []
    ∧ (deactivate (activate c6State [mkEvent 36 0 100, mkEvent 38 1 64])).stemPlayerUrls = []
    ∧ (deactivate (activate c6State [mkEvent 36 0 100, mkEvent 38 1 64])).metronomeNodes = false
    ∧ (deactivate (activate c6State [mkEvent 36 0 100, mkEvent 38 1 64])).transport.entries
        = c6State.transport.entries :=
  c6_topology_round_trip c6State [mkEvent 36 0 100, mkEvent 38 1 64] rfl rfl
    (by intro p hp; simp [c6State] at hp; rcases hp with h | h <;> simp [c6State, h])

/-! ## MIDI export (`lib/midi-export.ts`, `exportChannelMidi`) -/

/-- A note as passed to `track.addNote` of the `@tonejs/midi` library:
MIDI key, onset time in seconds, normalized velocity, duration in seconds. -/
structure MidiNote where
  midi : Nat
  time : ℚ
  velocity : ℚ
  duration : ℚ
deriving Repr, DecidableEq

/-- A track of the produced Standard MIDI File. -/
structure MidiTrack where
  channel : Nat
  notes : List MidiNote
deriving Repr, DecidableEq

/-- The produced Standard MIDI File: header tempo plus tracks. -/
structure MidiFile where
  tempo : ℚ
  tracks : List MidiTrack
deriving Repr, DecidableEq

/-- `exportEventsAsMidi` (`lib/midi-export.ts` lines 8-26): single track on
channel 9 (GM drums, 0-indexed), tempo from `bpm`, one note per event at its
`quantized_time` with velocity `velocity/127` and duration 0.05 s. -/
def exportEventsAsMidi (events : List DrumEvent) (bpm : ℚ) : MidiFile :=
  { tempo := bpm
    tracks := [{ channel := 9
                 notes := events.map (fun e =>
                   { midi := e.midi_note, time := e.quantized_time,
                     velocity := (e.velocity : ℚ) / 127, duration := 1/20 }) }] }

/-- `DawMixerEngine.exportChannelMidi` (`lib/daw-engine.ts` lines 306-314):
throw unless the channel exists and is a drum stem; otherwise export the
events whose MIDI note belongs to the channel's notes. -/
def exportChannelMidi (channels : List DawChannel) (channelId : String)
    (events : List DrumEvent) (bpm : ℚ) : Except String MidiFile :=
  match channels.find? (fun c => c.id == channelId) with
  | none => .error s!"Channel {channelId} is not a drum stem"
  | some c =>
    if c.type = ChannelType.drumStem then
      .ok (exportEventsAsMidi (events.filter (fun e => c.midiNotes.contains e.midi_note)) bpm)
    else .error s!"Channel {channelId} is not a drum stem"

/-- C8: for an existing drum-stem channel, the per-channel MIDI export
produces a single-track file on GM percussion channel 9 with tempo from the
given BPM, exactly one note per event of the channel's instrument keys at the
event's `quantized_time`, velocity `velocity/127` and fixed 0.05 s duration;
every exported note's key belongs to the channel. -/
theorem c8_channel_midi_export (channels : List DawChannel) (channelId : String)
    (events : List DrumEvent) (bpm : ℚ) (c : DawChannel)
    (hfind : channels.find? (fun ch => ch.id == channelId) = some c)
    (hty : c.type = ChannelType.drumStem) :
    exportChannelMidi channels channelId events bpm
        = .ok { tempo := bpm
                tracks := [{ channel := 9
                             notes := (events.filter
                                 (fun e => c.midiNotes.contains e.midi_note)).map
                               (fun e => { midi := e.midi_note, time := e.quantized_time,
                                           velocity := (e.velocity : ℚ) / 127,
                                           duration := 1/20 }) }] }
    ∧ (∀ f, exportChannelMidi channels channelId events bpm = .ok f →
        ∀ tr ∈ f.tracks, ∀ nt ∈ tr.notes, nt.midi ∈ c.midiNotes) := by
  have hmain : exportChannelMidi channels channelId events bpm
      = .ok (exportEventsAsMidi (events.filter
          (fun e => c.midiNotes.contains e.midi_note)) bpm) := by
    rw [exportChannelMidi, hfind]
    simp [hty]
  refine ⟨hmain, ?_⟩
  intro f hf tr htr nt hnt
  rw [hmain] at hf
  injection hf with hf
  subst hf
  simp only [exportEventsAsMidi, List.mem_singleton] at htr
  subst htr
  simp only [List.mem_map] at hnt
  obtain ⟨e, he, rfl⟩ := hnt
  have := List.of_mem_filter he
  simpa [List.elem_eq_mem] using this

/-- Witness for C8 on the activation-time channel list: exporting the "kick"
channel from a mixed event list. -/
theorem c8_channel_midi_export_witness :
    exportChannelMidi activateChannels "kick" [mkEvent 36 0 100, mkEvent 38 1 64] 120
        = .ok { tempo := 120
                tracks := [{ channel := 9
                             notes := ([mkEvent 36 0 100, mkEvent 38 1 64].filter
                                 (fun e => ((activateChannels.find?
                                     (fun ch => ch.id == "kick")).getD
                                     (sampleChannel "kick" false false)).midiNotes.contains
                                   e.midi_note)).map
                               (fun e => { midi := e.midi_note, time := e.quantized_time,
                                           velocity := (e.velocity : ℚ) / 127,
                                           duration := 1/20 }) }] }
    ∧ (∀ f, exportChannelMidi activateChannels "kick" [mkEvent 36 0 100, mkEvent 38 1 64] 120
          = .ok f →
        ∀ tr ∈ f.tracks, ∀ nt ∈ tr.notes,
          nt.midi ∈ ((activateChannels.find? (fun ch => ch.id == "kick")).getD
            (sampleChannel "kick" false false)).midiNotes) :=
  c8_channel_midi_export activateChannels "kick" [mkEvent 36 0 100, mkEvent 38 1 64] 120
    _ (by rfl) (by rfl)

/-- C10: `exportChannelMidi` throws exactly when no channel with the given id
exists or that channel is not a drum stem (in particular always for the
backing channel); for every existing drum-stem channel it returns a MIDI file
without throwing. -/
theorem c10_channel_midi_errors (channels : List DawChannel) (channelId : String)
    (events : List DrumEvent) (bpm : ℚ) :
    ((∃ msg, exportChannelMidi channels channelId events bpm = .error msg) ↔
      (∀ c, channels.find? (fun ch => ch.id == channelId) = some c
        → c.type ≠ ChannelType.drumStem))
    ∧ (∀ c, channels.find? (fun ch => ch.id == channelId) = some c
        → c.type = ChannelType.drumStem
        → ∃ f, exportChannelMidi channels channelId events bpm = .ok f) := by
  constructor
  · cases hfind : channels.find? (fun ch => ch.id == channelId) with
    | none =>
      simp only [exportChannelMidi, hfind]
      constructor
      · intro _ c hc
        exact absurd hc (by simp)
      · intro _
        exact ⟨_, rfl⟩
    | some c =>
      rw [exportChannelMidi, hfind]
      by_cases hty : c.type = ChannelType.drumStem
      · simp only [hty, if_true]
        constructor
        · rintro ⟨msg, hmsg⟩
          exact absurd hmsg (by simp)
        · intro h
          exact absurd hty (h c rfl)
      · simp only [hty, if_false]
        constructor
        · rintro - d hd
          injection hd with hd
          subst hd
          exact hty
        · intro _
          exact ⟨_, rfl⟩
  · intro c hfind hty
    rw [exportChannelMidi, hfind]
    simp [hty]

/-! ## Slider → dB mappings (`components/midi-player.tsx`,
`components/daw/daw-channel-strip.tsx`, `DawMixerEngine.exportMaster`) -/

/-- `sliderToDb` of the integrated player (`components/midi-player.tsx` lines
176-182): quadratic taper; `none` models `-Infinity` (hard silence). -/
noncomputable def sliderToDb (value : ℚ) : Option ℝ :=
  if value ≤ 0 then none
  else some (20 * Real.logb 10 (((value : ℝ) / 100) ^ 2))

/-- `dbToLinear` (`components/midi-player.tsx` lines 184-187): linear gain
from dB, with `-Infinity ↦ 0`. -/
noncomputable def dbToLinear (db : Option ℝ) : ℝ :=
  match db with
  | none => 0
  | some d => (10 : ℝ) ^ (d / 20)

/-- `sliderToDb` of the extended mixer's channel strip
(`components/daw/daw-channel-strip.tsx` line 79): a linear −20..+6 dB map. -/
def dawStripSliderToDb (val : ℚ) : ℚ := (val / 100) * 26 - 20

/-- The export gains the integrated player passes to `exportMix`
(`handleExport` in `components/midi-player.tsx` lines 228-233). -/
noncomputable def integratedExportGains (midiVol backingVol : ℚ) : ℝ × ℝ :=
  (dbToLinear (sliderToDb midiVol), dbToLinear (sliderToDb backingVol))

/-- `DawMixerEngine.exportMaster` (`lib/daw-engine.ts` lines 296-304), offline
core: it invokes `exportMix` with fixed gains `1, 1`. -/
def exportMaster (backing : BackingBuffer) (noteUrls : Nat → List String)
    (sampleBuffers : String → Bool) (events : List DrumEvent) : MixRender :=
  exportMix backing noteUrls sampleBuffers events 1 1

/-- C3 counterexample: the extended mixer's channel strip does not use the
quadratic taper: at slider 100 the integrated mapping gives 0 dB but the strip
gives +6 dB, and at slider 0 the strip gives a finite −20 dB instead of
silence. -/
theorem c3_counterexample :
    sliderToDb 100 = some 0 ∧ dawStripSliderToDb 100 = 6
    ∧ sliderToDb 0 = none ∧ dawStripSliderToDb 0 = -20 := by
  refine ⟨?_, by norm_num [dawStripSliderToDb], by norm_num [sliderToDb],
    by norm_num [dawStripSliderToDb]⟩
  rw [sliderToDb, if_neg (by norm_num)]
  norm_num

/-- C3 amended: the quadratic taper (`0 ↦ −∞`/silence, `100 ↦ 0 dB`, else
`20·log10((v/100)^2)`) is the integrated player's mapping, used for both its
live monitoring and its export gains; the extended mixer's channel strips
instead use the linear map `(v/100)·26 − 20`, and the extended mixer's master
export uses fixed unity gains. -/
theorem c3_slider_taper (v : ℚ) (hv : 0 < v) :
    sliderToDb v = some (20 * Real.logb 10 (((v : ℝ) / 100) ^ 2))
    ∧ sliderToDb 0 = none
    ∧ dbToLinear (sliderToDb 0) = 0
    ∧ sliderToDb 100 = some 0
    ∧ dbToLinear (sliderToDb 100) = 1
    ∧ (∀ m b : ℚ, integratedExportGains m b
        = (dbToLinear (sliderToDb m), dbToLinear (sliderToDb b)))
    ∧ dawStripSliderToDb 0 = -20
    ∧ dawStripSliderToDb 100 = 6
    ∧ (∀ (backing : BackingBuffer) (noteUrls : Nat → List String)
         (sampleBuffers : String → Bool) (events : List DrumEvent),
        (exportMaster backing noteUrls sampleBuffers events).backingGain = 1
        ∧ exportMaster backing noteUrls sampleBuffers events
            = exportMix backing noteUrls sampleBuffers events 1 1) := by
  have h100 : sliderToDb 100 = some 0 := by
    rw [sliderToDb, if_neg (by norm_num)]
    norm_num
  refine ⟨?_, by norm_num [sliderToDb], by norm_num [sliderToDb, dbToLinear], h100, ?_,
    fun m b => rfl, by norm_num [dawStripSliderToDb], by norm_num [dawStripSliderToDb],
    fun backing noteUrls sampleBuffers events => ⟨rfl, rfl⟩⟩
  · rw [sliderToDb, if_neg (by exact not_le.mpr hv)]
  · rw [h100]
    norm_num [dbToLinear]

/-- Witness for C3's amended statement at slider value 50. -/
theorem c3_slider_taper_witness :
    sliderToDb 50 = some (20 * Real.logb 10 ((((50 : ℚ) : ℝ) / 100) ^ 2))
    ∧ sliderToDb 0 = none :=
  ⟨(c3_slider_taper 50 (by norm_num)).1, (c3_slider_taper 50 (by norm_num)).2.1⟩

/-! ## WAV encoding (`encodeWav` in `lib/audio-export.ts` and the identical
copy in `lib/daw-engine.ts`) -/

/-- A decoded audio buffer: per-channel sample data (`getChannelData`), the
sample rate, and the frame count (`audioBuffer.length`). -/
structure AudioBuffer where
  channels : List (List ℚ)
  sampleRate : Nat
  numFrames : Nat
deriving Repr, DecidableEq

/-- Little-endian bytes of a 16-bit write (`DataView.setUint16 _ _ true`). -/
def u16le (x : Nat) : List Nat := [x % 256, x / 256 % 256]

/-- Little-endian bytes of a 32-bit write (`DataView.setUint32 _ _ true`). -/
def u32le (x : Nat) : List Nat :=
  [x % 256, x / 256 % 256, x / 65536 % 256, x / 16777216 % 256]

/-- `Math.max(-1, Math.min(1, sample))`. -/
def clampSample (q : ℚ) : ℚ := max (-1) (min 1 q)

/-- Truncation toward zero, as JavaScript's ToInt16 conversion applies to the
in-range value `sample * 0x7fff`. -/
def ratTrunc (q : ℚ) : Int := if 0 ≤ q then ⌊q⌋ else -⌊-q⌋

/-- The 16-bit quantization applied per sample: clamp to [-1, 1], scale by
0x7fff, truncate. -/
def quantize16 (q : ℚ) : Int := ratTrunc (clampSample q * 32767)

/-- Little-endian bytes of `DataView.setInt16 _ _ true` (two's complement). -/
def i16le (x : Int) : List Nat := u16le (x % 65536).toNat

/-- The interleaved PCM data section: frames outer, channels inner
(`encodeWav`'s final double loop). -/
def wavData (channels : List (List ℚ)) (numFrames : Nat) : List Nat :=
  (List.range numFrames).flatMap (fun i =>
    channels.flatMap (fun ch => i16le (quantize16 (ch.getD i 0))))

/-- `encodeWav`: the complete RIFF/WAVE byte stream — 44-byte header followed
by the 16-bit PCM data. -/
def encodeWav (buf : AudioBuffer) : List Nat :=
  let numChannels := buf.channels.length
  let dataSize := buf.numFrames * numChannels * 2
  [82, 73, 70, 70]
  ++ u32le (36 + dataSize)
  ++ [87, 65, 86, 69]
  ++ [102, 109, 116, 32]
  ++ u32le 16
  ++ u16le 1
  ++ u16le numChannels
  ++ u32le buf.sampleRate
  ++ u32le (buf.sampleRate * numChannels * 2)
  ++ u16le (numChannels * 2)
  ++ u16le 16
  ++ [100, 97, 116, 97]
  ++ u32le dataSize
  ++ wavData buf.channels buf.numFrames

/-- Little-endian 16-bit read from the head of a byte list. -/
def readU16 (bytes : List Nat) : Nat := bytes.getD 0 0 + 256 * bytes.getD 1 0

/-- Little-endian 32-bit read from the head of a byte list. -/
def readU32 (bytes : List Nat) : Nat :=
  bytes.getD 0 0 + 256 * bytes.getD 1 0 + 65536 * bytes.getD 2 0
    + 16777216 * bytes.getD 3 0

/-- Signed little-endian 16-bit read (two's complement decode). -/
def readI16 (bytes : List Nat) : Int :=
  let v := readU16 bytes
  if v < 32768 then (v : Int) else (v : Int) - 65536

lemma readU16_u16le (x : Nat) (rest : List Nat) (h : x < 65536) :
    readU16 (u16le x ++ rest) = x := by
  simp only [readU16, u16le, List.cons_append, List.nil_append,
    List.getD_cons_zero, List.getD_cons_succ]
  omega

lemma readU32_u32le (x : Nat) (rest : List Nat) (h : x < 4294967296) :
    readU32 (u32le x ++ rest) = x := by
  simp only [readU32, u32le, List.cons_append, List.nil_append,
    List.getD_cons_zero, List.getD_cons_succ]
  omega

lemma readI16_i16le (x : Int) (rest : List Nat) (hlo : -32768 ≤ x) (hhi : x < 32768) :
    readI16 (i16le x ++ rest) = x := by
  have hmod : (x % 65536).toNat < 65536 := by omega
  rw [readI16]
  rw [show readU16 (i16le x ++ rest) = (x % 65536).toNat from
    readU16_u16le _ rest hmod]
  split <;> omega

lemma quantize16_bounds (q : ℚ) : -32767 ≤ quantize16 q ∧ quantize16 q ≤ 32767 := by
  have h1 : (-1 : ℚ) ≤ clampSample q := le_max_left _ _
  have h2 : clampSample q ≤ 1 := max_le (by norm_num) (min_le_left _ _)
  have hlo : (-32767 : ℚ) ≤ clampSample q * 32767 := by nlinarith
  have hhi : clampSample q * 32767 ≤ 32767 := by nlinarith
  rw [quantize16, ratTrunc]
  split
  · constructor
    · have : (0 : Int) ≤ ⌊clampSample q * 32767⌋ := Int.floor_nonneg.mpr (by assumption)
      omega
    · have : ⌊clampSample q * 32767⌋ ≤ ⌊(32767 : ℚ)⌋ := Int.floor_le_floor hhi
      simpa using this
  · rename_i hneg
    push_neg at hneg
    constructor
    · have : ⌊-(clampSample q * 32767)⌋ ≤ ⌊(32767 : ℚ)⌋ :=
        Int.floor_le_floor (by linarith)
      simp only [Int.floor_intCast] at this
      have h32 : ⌊(32767 : ℚ)⌋ = 32767 := by norm_num
      omega
    · have : (0 : Int) ≤ ⌊-(clampSample q * 32767)⌋ :=
        Int.floor_nonneg.mpr (by linarith)
      omega

lemma length_flatMap_const {α : Type} (f : α → List Nat) (L : Nat)
    (hf : ∀ a, (f a).length = L) : ∀ l : List α, (l.flatMap f).length = l.length * L := by
  intro l
  induction l with
  | nil => simp
  | cons a rest ih =>
    simp only [List.flatMap_cons, List.length_append, hf, ih, List.length_cons]
    ring

lemma flatMap_drop {α : Type} [Inhabited α] (f : α → List Nat) (L : Nat)
    (hf : ∀ a, (f a).length = L) : ∀ (l : List α) (k : Nat), k < l.length →
      (l.flatMap f).drop (k * L) = f (l.getD k default) ++ (l.drop (k + 1)).flatMap f := by
  intro l
  induction l with
  | nil => intro k hk; simp at hk
  | cons a rest ih =>
    intro k hk
    cases k with
    | zero => simp [List.flatMap_cons]
    | succ k' =>
      rw [List.flatMap_cons]
      rw [show (k' + 1) * L = L + k' * L by ring]
      rw [← List.drop_drop]
      rw [List.drop_left' (hf a)]
      rw [ih k' (by simpa using Nat.lt_of_succ_lt_succ hk)]
      simp

lemma wavData_length (channels : List (List ℚ)) (numFrames : Nat) :
    (wavData channels numFrames).length = numFrames * (channels.length * 2) := by
  rw [wavData]
  rw [length_flatMap_const _ (channels.length * 2)]
  · simp
  · intro i
    rw [length_flatMap_const _ 2]
    · intro c
      simp [i16le, u16le]

lemma wavData_sample (channels : List (List ℚ)) (numFrames : Nat)
    (i ch : Nat) (hi : i < numFrames) (hch : ch < channels.length) :
    readI16 ((wavData channels numFrames).drop ((i * channels.length + ch) * 2))
      = quantize16 ((channels.getD ch []).getD i 0) := by
  have hframe : ∀ j : Nat,
      (channels.flatMap (fun c => i16le (quantize16 (c.getD j 0)))).length
        = channels.length * 2 := by
    intro j
    rw [length_flatMap_const _ 2]
    intro c
    simp [i16le, u16le]
  rw [wavData]
  rw [show (i * channels.length + ch) * 2 = i * (channels.length * 2) + ch * 2 by ring]
  rw [← List.drop_drop]
  rw [flatMap_drop _ (channels.length * 2) hframe (List.range numFrames) i (by simpa)]
  rw [show (List.range numFrames).getD i default = i by
    rw [List.getD_eq_getElem _ _ (by simpa)]; simp]
  rw [List.drop_append_of_le_length (by rw [hframe]; omega)]
  rw [flatMap_drop _ 2 (fun c => by simp [i16le, u16le]) channels ch hch]
  rw [List.append_assoc]
  have hb := quantize16_bounds ((channels.getD ch default).getD i 0)
  rw [readI16_i16le _ _ (by omega) (by omega)]
  rfl

set_option maxHeartbeats 2000000 in
/-- C7: the exported WAV byte stream is a RIFF/WAVE container of 16-bit
signed little-endian PCM at the buffer's sample rate: RIFF size 36+dataSize,
`fmt ` chunk with PCM format 1, the channel count, sample rate, byte rate
rate·channels·2, block align channels·2, 16 bits, and a `data` chunk of
frames·channels·2 bytes whose samples are the inputs clamped to [-1, 1] and
quantized to 16 bits (hence within ±0x7fff). -/
theorem c7_encode_wav (buf : AudioBuffer)
    (hds : 36 + buf.numFrames * buf.channels.length * 2 < 4294967296)
    (hbr : buf.sampleRate * buf.channels.length * 2 < 4294967296)
    (hsr : buf.sampleRate < 4294967296)
    (hch : buf.channels.length < 32768) :
    (encodeWav buf).length = 44 + buf.numFrames * buf.channels.length * 2
    ∧ (encodeWav buf).take 4 = [82, 73, 70, 70]
    ∧ readU32 ((encodeWav buf).drop 4) = 36 + buf.numFrames * buf.channels.length * 2
    ∧ ((encodeWav buf).drop 8).take 4 = [87, 65, 86, 69]
    ∧ ((encodeWav buf).drop 12).take 4 = [102, 109, 116, 32]
    ∧ readU32 ((encodeWav buf).drop 16) = 16
    ∧ readU16 ((encodeWav buf).drop 20) = 1
    ∧ readU16 ((encodeWav buf).drop 22) = buf.channels.length
    ∧ readU32 ((encodeWav buf).drop 24) = buf.sampleRate
    ∧ readU32 ((encodeWav buf).drop 28) = buf.sampleRate * buf.channels.length * 2
    ∧ readU16 ((encodeWav buf).drop 32) = buf.channels.length * 2
    ∧ readU16 ((encodeWav buf).drop 34) = 16
    ∧ ((encodeWav buf).drop 36).take 4 = [100, 97, 116, 97]
    ∧ readU32 ((encodeWav buf).drop 40) = buf.numFrames * buf.channels.length * 2
    ∧ ((encodeWav buf).drop 44).length = buf.numFrames * buf.channels.length * 2
    ∧ (∀ i ch : Nat, i < buf.numFrames → ch < buf.channels.length →
        readI16 ((encodeWav buf).drop (44 + (i * buf.channels.length + ch) * 2))
            = quantize16 ((buf.channels.getD ch []).getD i 0)
        ∧ -32767 ≤ quantize16 ((buf.channels.getD ch []).getD i 0)
        ∧ quantize16 ((buf.channels.getD ch []).getD i 0) ≤ 32767) := by
  refine ⟨?_, rfl, ?_, rfl, rfl, ?_, ?_, ?_, ?_, ?_, ?_, ?_, rfl, ?_, ?_, ?_⟩
  · rw [show encodeWav buf
        = [82, 73, 70, 70]
          ++ u32le (36 + buf.numFrames * buf.channels.length * 2)
          ++ [87, 65, 86, 69] ++ [102, 109, 116, 32] ++ u32le 16 ++ u16le 1
          ++ u16le buf.channels.length ++ u32le buf.sampleRate
          ++ u32le (buf.sampleRate * buf.channels.length * 2)
          ++ u16le (buf.channels.length * 2) ++ u16le 16 ++ [100, 97, 116, 97]
          ++ u32le (buf.numFrames * buf.channels.length * 2)
          ++ wavData buf.channels buf.numFrames from rfl]
    simp only [List.length_append, u32le, u16le, List.length_cons, List.length_nil,
      wavData_length]
    ring
  · rw [show (encodeWav buf).drop 4
        = u32le (36 + buf.numFrames * buf.channels.length * 2) ++ (encodeWav buf).drop 8
        from rfl]
    exact readU32_u32le _ _ hds
  · rw [show (encodeWav buf).drop 16 = u32le 16 ++ (encodeWav buf).drop 20 from rfl]
    exact readU32_u32le _ _ (by norm_num)
  · rw [show (encodeWav buf).drop 20 = u16le 1 ++ (encodeWav buf).drop 22 from rfl]
    exact readU16_u16le _ _ (by norm_num)
  · rw [show (encodeWav buf).drop 22
        = u16le buf.channels.length ++ (encodeWav buf).drop 24 from rfl]
    exact readU16_u16le _ _ (by omega)
  · rw [show (encodeWav buf).drop 24
        = u32le buf.sampleRate ++ (encodeWav buf).drop 28 from rfl]
    exact readU32_u32le _ _ hsr
  · rw [show (encodeWav buf).drop 28
        = u32le (buf.sampleRate * buf.channels.length * 2) ++ (encodeWav buf).drop 32
        from rfl]
    exact readU32_u32le _ _ hbr
  · rw [show (encodeWav buf).drop 32
        = u16le (buf.channels.length * 2) ++ (encodeWav buf).drop 34 from rfl]
    exact readU16_u16le _ _ (by omega)
  · rw [show (encodeWav buf).drop 34 = u16le 16 ++ (encodeWav buf).drop 36 from rfl]
    exact readU16_u16le _ _ (by norm_num)
  · rw [show (encodeWav buf).drop 40
        = u32le (buf.numFrames * buf.channels.length * 2) ++ (encodeWav buf).drop 44
        from rfl]
    exact readU32_u32le _ _ (by omega)
  · rw [show (encodeWav buf).drop 44 = wavData buf.channels buf.numFrames from rfl]
    rw [wavData_length]
    ring
  · intro i ch hi hch'
    have hb := quantize16_bounds ((buf.channels.getD ch []).getD i 0)
    refine ⟨?_, hb.1, hb.2⟩
    rw [← List.drop_drop]
    rw [show (encodeWav buf).drop 44 = wavData buf.channels buf.numFrames from rfl]
    exact wavData_sample buf.channels buf.numFrames i ch hi hch'

/-- Concrete stereo buffer for the C7 witness: two frames, one sample above 1
(exercising the clamp). -/
def c7Buf : AudioBuffer :=
  { channels := [[1/2, 2], [0, -1/4]], sampleRate := 44100, numFrames := 2 }

/-- Witness for C7 at a concrete two-frame stereo buffer. -/
theorem c7_encode_wav_witness :
    (encodeWav c7Buf).length = 44 + c7Buf.numFrames * c7Buf.channels.length * 2
    ∧ (encodeWav c7Buf).take 4 = [82, 73, 70, 70]
    ∧ readU32 ((encodeWav c7Buf).drop 4)
        = 36 + c7Buf.numFrames * c7Buf.channels.length * 2
    ∧ ((encodeWav c7Buf).drop 8).take 4 = [87, 65, 86, 69]
    ∧ ((encodeWav c7Buf).drop 12).take 4 = [102, 109, 116, 32]
    ∧ readU32 ((encodeWav c7Buf).drop 16) = 16
    ∧ readU16 ((encodeWav c7Buf).drop 20) = 1
    ∧ readU16 ((encodeWav c7Buf).drop 22) = c7Buf.channels.length
    ∧ readU32 ((encodeWav c7Buf).drop 24) = c7Buf.sampleRate
    ∧ readU32 ((encodeWav c7Buf).drop 28) = c7Buf.sampleRate * c7Buf.channels.length * 2
    ∧ readU16 ((encodeWav c7Buf).drop 32) = c7Buf.channels.length * 2
    ∧ readU16 ((encodeWav c7Buf).drop 34) = 16
    ∧ ((encodeWav c7Buf).drop 36).take 4 = [100, 97, 116, 97]
    ∧ readU32 ((encodeWav c7Buf).drop 40) = c7Buf.numFrames * c7Buf.channels.length * 2
    ∧ ((encodeWav c7Buf).drop 44).length = c7Buf.numFrames * c7Buf.channels.length * 2
    ∧ (∀ i ch : Nat, i < c7Buf.numFrames → ch < c7Buf.channels.length →
        readI16 ((encodeWav c7Buf).drop (44 + (i * c7Buf.channels.length + ch) * 2))
            = quantize16 ((c7Buf.channels.getD ch []).getD i 0)
        ∧ -32767 ≤ quantize16 ((c7Buf.channels.getD ch []).getD i 0)
        ∧ quantize16 ((c7Buf.channels.getD ch []).getD i 0) ≤ 32767) :=
  c7_encode_wav c7Buf (by norm_num [c7Buf]) (by norm_num [c7Buf])
    (by norm_num [c7Buf]) (by norm_num [c7Buf])

end Drumtrack
